import Mathlib

/-!
Shallow embedding of the ctdcal SBE911 frame decoder/encoder
(src/ctdcal/parsers/sbe911.py) and the SBS conversion pipeline
(src/ctdcal/processors/sbs.py), with theorems settling the frozen claims.

Python floats are modelled as rationals (ℚ); transcendental library calls
(numpy exp/log) are abstract function parameters, since the claims under
study concern only the algebraic structure around them.  Python strings are
modelled as Lean `String`, with the handful of needed `str` methods
re-implemented by structural recursion over the character list so that all
definitions evaluate inside the kernel.
-/

namespace Ctdcal

instance {ε α : Type _} [DecidableEq ε] [DecidableEq α] : DecidableEq (Except ε α) := fun x y =>
  match x, y with
  | .ok a, .ok b =>
    if h : a = b then .isTrue (by rw [h]) else .isFalse (by simp [h])
  | .error a, .error b =>
    if h : a = b then .isTrue (by rw [h]) else .isFalse (by simp [h])
  | .ok _, .error _ => .isFalse (by simp)
  | .error _, .ok _ => .isFalse (by simp)

/-! ## Python string primitives (modelled over the character list) -/

/-- Model of `str.splitlines` (splits on LF, CR and CRLF, no trailing
empty line for a trailing terminator). -/
def splitLinesAux : List Char → List Char → List String
  | [], acc => if acc.isEmpty then [] else [String.mk acc.reverse]
  | '\r' :: '\n' :: rest, acc => String.mk acc.reverse :: splitLinesAux rest []
  | '\r' :: rest, acc => String.mk acc.reverse :: splitLinesAux rest []
  | '\n' :: rest, acc => String.mk acc.reverse :: splitLinesAux rest []
  | c :: rest, acc => splitLinesAux rest (c :: acc)

def splitLines (s : String) : List String :=
  splitLinesAux s.data []

/-- Is `pat` a prefix of `cs`? -/
def isPrefixL : List Char → List Char → Bool
  | [], _ => true
  | _ :: _, [] => false
  | a :: as, b :: bs => a == b && isPrefixL as bs

/-- Model of the Python `in` operator on strings (substring containment). -/
def containsL : List Char → List Char → Bool
  | [], pat => pat.isEmpty
  | c :: rest, pat => isPrefixL pat (c :: rest) || containsL rest pat

def containsStr (s pat : String) : Bool :=
  containsL s.data pat.data

/-- Fuel-driven worker for `str.split(pat)` (nonempty separator). -/
def splitOnAuxL : ℕ → List Char → List Char → List Char → List (List Char)
  | 0, _, cs, acc => [acc.reverse ++ cs]
  | _ + 1, _, [], acc => [acc.reverse]
  | fuel + 1, pat, c :: rest, acc =>
    if isPrefixL pat (c :: rest) && !pat.isEmpty then
      acc.reverse :: splitOnAuxL fuel pat ((c :: rest).drop pat.length) []
    else
      splitOnAuxL fuel pat rest (c :: acc)

/-- Model of Python `str.split(pat)` for a nonempty separator `pat`. -/
def strSplitOn (s pat : String) : List String :=
  (splitOnAuxL (s.data.length + 1) pat.data s.data []).map String.mk

/-- Model of `str.lower` (ASCII inputs only, as in the parsed files). -/
def lowerStr (s : String) : String :=
  String.mk (s.data.map Char.toLower)

def startsWithStr (s pat : String) : Bool :=
  isPrefixL pat.data s.data

/-- Decimal digit list of a natural number, most significant first
(fuel-driven so that it reduces in the kernel). -/
def natDigitsAux : ℕ → ℕ → List Char
  | 0, _ => []
  | _ + 1, 0 => []
  | fuel + 1, n + 1 =>
    natDigitsAux fuel ((n + 1) / 10) ++ [Char.ofNat (48 + (n + 1) % 10)]

/-- Model of Python `str(n)` for a natural number. -/
def natStr (n : ℕ) : String :=
  if n = 0 then "0" else String.mk (natDigitsAux (n + 1) n)

/-- Model of Python `int(s)` restricted to plain nonempty digit strings
(the only shape occurring in the parsed header lines). -/
def strToNatAux : List Char → ℕ → Option ℕ
  | [], acc => some acc
  | c :: rest, acc =>
    if c.isDigit then strToNatAux rest (acc * 10 + (c.toNat - 48)) else none

def strToNat (s : String) : Option ℕ :=
  match s.data with
  | [] => none
  | cs => strToNatAux cs 0

/-- Model of `sep.join(xs)`. -/
def joinSep (sep : String) : List String → String
  | [] => ""
  | [x] => x
  | x :: y :: rest => x ++ sep ++ joinSep sep (y :: rest)

/-! ## Hex text to bytes and back -/

/-- Value of one hexadecimal digit character. -/
def hexVal (c : Char) : Option ℕ :=
  if '0' ≤ c && c ≤ '9' then some (c.toNat - 48)
  else if 'a' ≤ c && c ≤ 'f' then some (c.toNat - 87)
  else if 'A' ≤ c && c ≤ 'F' then some (c.toNat - 55)
  else none

/-- Model of `bytes.fromhex` on a clean (whitespace-free) hex string:
pairs of hex digits, failing on odd length or a non-hex character. -/
def bytesFromHexAux : List Char → Option (List ℕ)
  | [] => some []
  | [_] => none
  | c1 :: c2 :: rest =>
    match hexVal c1, hexVal c2, bytesFromHexAux rest with
    | some h, some l, some bs => some ((h * 16 + l) :: bs)
    | _, _, _ => none

def bytesFromHex (s : String) : Option (List ℕ) :=
  bytesFromHexAux s.data

/-- Uppercase hex digit character for a value below 16. -/
def upperHexChar (d : ℕ) : Char :=
  if d < 10 then Char.ofNat (48 + d) else Char.ofNat (55 + d)

/-- The two uppercase hex characters of one byte (`bytes.hex().upper()`). -/
def byteHex (b : ℕ) : List Char :=
  [upperHexChar (b / 16), upperHexChar (b % 16)]

/-! ## hex_to_dataset (src/ctdcal/parsers/sbe911.py lines 21-93) -/

/-- The `errors` argument of `hex_to_dataset` (`Literal["store","raise","ignore"]`). -/
inductive Errors where
  | raiseMode
  | ignoreMode
  | storeMode
deriving DecidableEq

/-- Model of the relevant parts of the `xarray.Dataset` built by
`hex_to_dataset`: the uint8 byte matrix (one row per scan) and the
string attributes (`hex_header`). -/
structure Dataset where
  hexData : List (List ℕ)
  attrs : List (String × String)
deriving DecidableEq

/-- One pass of the header scan inside the line loop: if the lowered line
contains "number of bytes per scan", re-read `datalen` (via
`int(line.split("= ")[1])`) and `linelen = datalen * 2`. -/
def scanHeaderNum (line : String) (datalen linelen : ℕ) :
    Except String (ℕ × ℕ) :=
  if containsStr (lowerStr line) "number of bytes per scan" then
    match (strSplitOn line "= ").get? 1 with
    | none => .error "IndexError: list index out of range"
    | some s =>
      match strToNat s with
      | none => .error ("ValueError: invalid literal for int: " ++ s)
      | some n => .ok (n, n * 2)
  else
    .ok (datalen, linelen)

/-- The line loop of `hex_to_dataset`, carrying line number, accumulated
header comments and byte rows (both reversed), and the scan-length state. -/
def h2dLoop (errors : Errors) :
    List String → ℕ → List String → List (List ℕ) → ℕ → ℕ →
    Except String (List String × List (List ℕ))
  | [], _, comments, out, _, _ => .ok (comments.reverse, out.reverse)
  | line :: rest, lineno, comments, out, datalen, linelen => do
    let (datalen, linelen) ← scanHeaderNum line datalen linelen
    if startsWithStr line "*" then
      h2dLoop errors rest (lineno + 1) (line :: comments) out datalen linelen
    else if datalen = 0 then
      .error ("ValueError: Could not find number of bytes per scan in " ++
        natStr lineno ++ " lines")
    else if line.length ≠ linelen then
      match errors with
      | .raiseMode =>
        .error ("ValueError: invalid scan lengths line: " ++ natStr lineno)
      | .ignoreMode =>
        h2dLoop errors rest (lineno + 1) comments out datalen linelen
      | .storeMode =>
        .error "NotImplementedError: better figure out how to do this"
    else
      match bytesFromHex line with
      | none => .error "ValueError: non-hexadecimal number found in fromhex arg"
      | some bs => h2dLoop errors rest (lineno + 1) comments (bs :: out) datalen linelen

/-- Model of `hex_to_dataset`: decode hex text into a byte matrix plus the
`hex_header` attribute (comment lines joined with a bare newline). -/
def hex_to_dataset (hex : String) (errors : Errors) : Except String Dataset := do
  let (comments, out) ← h2dLoop errors (splitLines hex) 1 [] [] 0 0
  .ok { hexData := out, attrs := [("hex_header", joinSep "\n" comments)] }

/-! ## ds_to_hex (src/ctdcal/parsers/sbe911.py lines 292-313) -/

/-- Attribute access `ds.<name>` on the modelled Dataset: the only data
variable is named "hex", so any other name falls back to the attribute
dictionary, and a miss raises `AttributeError` (as xarray does). -/
def lookupAttr (ds : Dataset) (name : String) : Option String :=
  (ds.attrs.find? (fun kv => kv.1 == name)).map (·.2)

/-- Model of `ds_to_hex`, with the generator's yielded byte chunks
concatenated into one string: the `ds.comments` lines re-joined with CRLF,
a CRLF, then each scan row as uppercase hex followed by CRLF (the flat hex
dump of the matrix re-chunked into rows of `bytes_per_scan * 2`
characters). -/
def ds_to_hex (ds : Dataset) : Except String String :=
  match lookupAttr ds "comments" with
  | none => .error "AttributeError: Dataset object has no attribute comments"
  | some comments =>
    let headerPart := joinSep "\r\n" (splitLines comments) ++ "\r\n"
    let allHex : List Char := (ds.hexData.flatten.map byteHex).flatten
    let rowLen := (ds.hexData.headD []).length * 2
    let rows := (List.range ds.hexData.length).map
      (fun r => String.mk ((allHex.drop (r * rowLen)).take rowLen) ++ "\r\n")
    .ok (headerPart ++ String.join rows)

/-! ## Channel extraction (src/ctdcal/parsers/sbe911.py lines 315-436)

The numpy column operations `hex[:, m]` are modelled row-wise: each scan row
is a `List ℕ` of byte values, and a whole-column operation becomes a `map`
over the rows.  The uint32/uint16 intermediate words never overflow their
dtypes (3 bytes, resp. 2 bytes), so plain `ℕ` bit operations are exact. -/

/-- Model of `get_freq` (lines 315-322): big-endian 3-byte word at byte
offset `3 * channel`, divided by 256 (as a float, here ℚ). -/
def get_freq (hex : List (List ℕ)) (channel : ℕ) : List ℚ :=
  let m := 3 * channel
  hex.map (fun row =>
    ((((row.getD m 0 <<< 8 ||| row.getD (m + 1) 0) <<< 8 |||
        row.getD (m + 2) 0 : ℕ) : ℚ) / 256))

/-- Model of `hex_to_f` (lines 324-341): one column per frequency channel,
`5 - f_suppressed` channels in total. -/
def hex_to_f (hex : List (List ℕ)) (f_suppressed : ℕ) : List (List ℚ) :=
  (List.range (5 - f_suppressed)).map (fun channel => get_freq hex channel)

/-- Model of `calc_v_indexes` (lines 343-353): first byte index, second byte
index, and nibble flag `1 - n % 2`. -/
def calc_v_indexes (n : ℕ) : ℕ × ℕ × ℕ :=
  (n / 2 * 3 + n % 2, n / 2 * 3 + n % 2 + 1, 1 - n % 2)

/-- Model of `get_channel_voltage` (lines 355-393): byte indices from
`calc_v_indexes` advanced by `(5 - freq_supressed) * 3`, big-endian 16-bit
word, nibble shift, 12-bit mask, normalized to `5 * (1 - data / 4095)`. -/
def get_channel_voltage (hex : List (List ℕ)) (channel freq_supressed : ℕ) : List ℚ :=
  let offset := (5 - freq_supressed) * 3
  let idx := calc_v_indexes channel
  let first_byte_idx := idx.1 + offset
  let second_byte_idx := idx.2.1 + offset
  let shift := idx.2.2
  hex.map (fun row =>
    let data := ((row.getD first_byte_idx 0 <<< 8 ||| row.getD second_byte_idx 0)
        >>> (4 * shift)) &&& 4095
    5 * (1 - (data : ℚ) / 4095))

/-- Rendering of a Python integer (used in f-string error messages). -/
def intStr (i : ℤ) : String :=
  if i < 0 then "-" ++ natStr i.natAbs else natStr i.toNat

/-- Model of Python `range(a, b)` over machine integers. -/
def intRange (a b : ℤ) : List ℤ :=
  (List.range (b - a).toNat).map (fun (i : ℕ) => a + (i : ℤ))

/-- Model of `hex_to_v` (lines 395-436).  `xmlconLen` is `len(data_xmlcon)`;
the Python expression `len - (len - 5)` is evaluated in ℤ exactly as the
source does.  The output is the list of voltage-channel columns (the numpy
array is (scan, channel); the claims under study only concern the channel
count and the channel indices used, which the column list exposes). -/
def hex_to_v (hex : List (List ℕ)) (xmlconLen : ℕ) (freq_supressed : ℕ) :
    Except String (List (List ℚ)) :=
  let start_v_ind : ℤ := (xmlconLen : ℤ) - ((xmlconLen : ℤ) - 5)
  let end_v_ind : ℤ := (xmlconLen : ℤ)
  if start_v_ind < 0 ∨ start_v_ind ≥ end_v_ind then
    .error ("ValueError: Invalid channel indices: start_v_ind=" ++
      intStr start_v_ind ++ ", end_v_ind=" ++ intStr end_v_ind)
  else
    .ok ((intRange start_v_ind end_v_ind).map
      (fun channel => get_channel_voltage hex channel.toNat freq_supressed))

/-! Spec-side formulas for the extraction claims (written from the spec's
words, to be compared with the code embedding above). -/

/-- Spec formula for the 12-bit voltage word of channel `n` with `f`
suppressed frequency channels: bytes at `(5-f)*3 + 3*(n//2) + (n%2)` and
the next one, big-endian, shifted right by `4*(1 - n%2)`, masked to 12
bits. -/
def specVWord (n f : ℕ) (row : List ℕ) : ℕ :=
  let start := (5 - f) * 3 + 3 * (n / 2) + n % 2
  ((row.getD start 0 <<< 8 ||| row.getD (start + 1) 0) >>> (4 * (1 - n % 2))) &&& 4095

/-- Spec formula for the frequency word of channel `c`: the big-endian
3-byte integer starting at byte offset `3c`. -/
def specFWord (c : ℕ) (row : List ℕ) : ℕ :=
  (row.getD (3 * c) 0 <<< 8 ||| row.getD (3 * c + 1) 0) <<< 8 ||| row.getD (3 * c + 2) 0

/-! ## The convert_science work queue (src/ctdcal/processors/sbs.py lines 79-233)

`sensor_lookup` (loaded from a YAML file that is not part of the sources)
is modelled as an abstract total map from SensorID strings to lookup rows;
the claims under study hold for every such map.  `sensor_df.sort_values`
is modelled as a stable sort on the priority column. -/

/-- One channel of the parsed XMLCON sensor map, as consumed by
`convert_science`: its index, its `SensorID` and its `SensorName`. -/
structure SensorChan where
  channel : ℕ
  sensorID : String
  sensorName : String
deriving DecidableEq

/-- One row of the `lookup_table.yaml` mapping: conversion function name,
short display name, and processing priority. -/
structure LookupEntry where
  functionName : String
  shortName : String
  priority : ℤ
deriving DecidableEq

/-- One row of `sensor_df` (a queue item / channel descriptor). -/
structure Row where
  channel : ℕ
  sensorID : String
  sensorName : String
  functionName : String
  shortName : String
  priority : ℤ
  newName : String
deriving DecidableEq

/-- Building `sensor_df` from the sensor map and the lookup table
(lines 95-112). -/
def mkRows (sensors : List SensorChan) (lookup : String → LookupEntry) : List Row :=
  sensors.map (fun s =>
    { channel := s.channel, sensorID := s.sensorID, sensorName := s.sensorName,
      functionName := (lookup s.sensorID).functionName,
      shortName := (lookup s.sensorID).shortName,
      priority := (lookup s.sensorID).priority,
      newName := "" })

/-- The `FREE` / `U_DEF_poly` short-name reassignment (lines 115-122),
applied row-wise. -/
def rinkoFix (r : Row) : Row :=
  if r.shortName = "FREE" ∨ r.shortName = "U_DEF_poly" then
    if containsStr (lowerStr r.sensorName) "rinko" then { r with shortName := "RINKO" }
    else if r.sensorName ≠ "" then { r with shortName := r.sensorName }
    else r
  else r

/-- Pointwise update of the name tracker dictionary. -/
def bumpCount (tr : String → ℕ) (name : String) (v : ℕ) : String → ℕ :=
  fun s => if s = name then v else tr s

/-- The display-name disambiguation loop (lines 124-135): first occurrence
of a short name keeps it, later occurrences get the incremented count as a
numeric suffix. -/
def renameRows : List Row → (String → ℕ) → List Row
  | [], _ => []
  | r :: rs, tr =>
    let c := tr r.shortName
    if c = 0 then
      { r with newName := r.shortName } :: renameRows rs (bumpCount tr r.shortName 1)
    else
      { r with newName := r.shortName ++ natStr (c + 1) } ::
        renameRows rs (bumpCount tr r.shortName (c + 1))

/-- The sorted, short-name-fixed rows of `sensor_df` just before display
names are disambiguated (`sort_values` modelled as a stable sort on the
priority column). -/
def preQueue (sensors : List SensorChan) (lookup : String → LookupEntry) : List Row :=
  ((mkRows sensors lookup).insertionSort (fun a b => a.priority ≤ b.priority)).map rinkoFix

/-- The priority-sorted, name-disambiguated work queue that the
`for channel in sensor_df.channel` loop of `convert_science` iterates
over, one item per row of `sensor_df`. -/
def buildQueue (sensors : List SensorChan) (lookup : String → LookupEntry) : List Row :=
  renameRows (preQueue sensors lookup) (fun _ => 0)

/-- Number of occurrences of the short name `s` among the first `m` rows
(used to state the closed form of the disambiguation loop). -/
def cntShort (l : List Row) (m : ℕ) (s : String) : ℕ :=
  (l.take m).countP (fun x => x.shortName == s)

/-- The display name row `r` receives at position `m` of the queue built
from rows `l`: unsuffixed when no earlier row shares its short name, else
suffixed with the occurrence count plus one. -/
def renameAt (l : List Row) (m : ℕ) (r : Row) : Row :=
  { r with newName :=
      if cntShort l m r.shortName = 0 then r.shortName
      else r.shortName ++ natStr (cntShort l m r.shortName + 1) }

/-- Model of Python `name[-1].isdigit()` on a nonempty string. -/
def lastIsDigit (s : String) : Bool :=
  match s.data.getLast? with
  | some c => c.isDigit
  | none => false

/-- The already-resolved Science Dataset column names that the dispatch
`match` of `convert_science` (lines 162-229) reads for a queue item with
the given `sensorID` and disambiguated name: temperature and conductivity
are chosen by inspecting whether the name ends in a digit; pressure is
always `CTDPRS`. -/
def depsOf (sensorID newName : String) : List String :=
  if sensorID = "55" then []
  else if sensorID = "45" then []
  else if sensorID = "3" then
    [(if lastIsDigit newName then "CTDTMP2" else "CTDTMP"), "CTDPRS"]
  else if sensorID = "38" then
    [(if lastIsDigit newName then "CTDTMP2" else "CTDTMP"),
     (if lastIsDigit newName then "CTDCOND2" else "CTDCOND"), "CTDPRS"]
  else if sensorID = "61" then
    (if containsStr (lowerStr newName) "rinko" && !(lastIsDigit newName)
     then ["CTDPRS"] else [])
  else []

/-! ## Coefficient dictionaries and conversion equations
(src/ctdcal/processors/sbs.py lines 18-76, 236-273, 502-553)

A Python value inside a coefficient dictionary is either the string parsed
from the XMLCON or the float the equations coerce it to.  A Python `dict`
is modelled as an insertion-ordered association list; in-place assignment
(`coefs[key] = ...`) replaces the value of an existing key in place.  The
numpy transcendental calls (`np.log`, `np.exp`) are abstract parameters
`rlog` / `rexp`. -/

/-- A Python value held in a coefficient dictionary. -/
inductive PyVal where
  | pstr (s : String)
  | pfloat (q : ℚ)
deriving DecidableEq

/-- A Python dict of coefficients (insertion-ordered association list). -/
abbrev Dict := List (String × PyVal)

def lookupD (d : Dict) (k : String) : Option PyVal :=
  (d.find? (fun kv => kv.1 == k)).map (·.2)

/-- In-place dict assignment `d[k] = v`: replace the value of an existing
key, or append the key at the end. -/
def setD : Dict → String → PyVal → Dict
  | [], k, v => [(k, v)]
  | (k0, v0) :: rest, k, v =>
    if k0 = k then (k0, v) :: rest else (k0, v0) :: setD rest k v

/-- Helper for `float(str)`: integer part and fraction split at a dot. -/
def splitAtCh (c : Char) : List Char → List Char × Option (List Char)
  | [] => ([], none)
  | x :: rest =>
    if x = c then ([], some rest)
    else
      let p := splitAtCh c rest
      (x :: p.1, p.2)

/-- Helper for `float(str)`: split the mantissa from an `e`/`E` exponent. -/
def splitAtExp : List Char → List Char × Option (List Char)
  | [] => ([], none)
  | x :: rest =>
    if x = 'e' ∨ x = 'E' then ([], some rest)
    else
      let p := splitAtExp rest
      (x :: p.1, p.2)

def allDigits (cs : List Char) : Bool := cs.all Char.isDigit

/-- Digit-list value (0 for the empty list). -/
def digitsVal (cs : List Char) : ℕ :=
  cs.foldl (fun acc c => acc * 10 + (c.toNat - 48)) 0

/-- Model of Python `float(s)` on clean decimal/scientific literals. -/
def parseFloatStr (s : String) : Option ℚ :=
  let p0 : ℚ × List Char :=
    match s.data with
    | '-' :: rest => (-1, rest)
    | '+' :: rest => (1, rest)
    | cs => (1, cs)
  let sign := p0.1
  let m := splitAtExp p0.2
  let ip := splitAtCh '.' m.1
  let intPart := ip.1
  let fracPart := (ip.2).getD []
  if allDigits intPart && allDigits fracPart && !(intPart.isEmpty && fracPart.isEmpty) then
    let mant : ℚ := (digitsVal intPart : ℚ) +
      (digitsVal fracPart : ℚ) / (10 : ℚ) ^ fracPart.length
    match m.2 with
    | none => some (sign * mant)
    | some ecs =>
      let pe : ℤ × List Char :=
        match ecs with
        | '-' :: rest => (-1, rest)
        | '+' :: rest => (1, rest)
        | cs => (1, cs)
      if allDigits pe.2 && !pe.2.isEmpty then
        some (sign * mant * (10 : ℚ) ^ (pe.1 * (digitsVal pe.2 : ℤ)))
      else none
  else none

/-- Model of Python `float(v)` on a dictionary value. -/
def parseFloatVal : PyVal → Option ℚ
  | .pfloat q => some q
  | .pstr s => parseFloatStr s

/-- Read an already-coerced float coefficient out of a dict. -/
def getF (d : Dict) (k : String) : ℚ :=
  match lookupD d k with
  | some (.pfloat q) => q
  | _ => 0

/-- Model of `_check_coefs` (lines 18-31): the sorted set of expected keys
missing from the dict; raise `KeyError` naming them when nonempty. -/
def _check_coefs (coefs : Dict) (expected : List String) : Except String Unit :=
  let missing :=
    ((expected.filter (fun k => (lookupD coefs k).isNone)).dedup).insertionSort
      (fun a b => a ≤ b)
  if missing = [] then .ok ()
  else .error ("KeyError: Coefficient dictionary missing keys: " ++ joinSep ", " missing)

/-- Model of `_check_freq` (lines 34-57): zero frequencies are replaced by
NaN (modelled as `none`); the replacement notice is a print with no effect
on the data. -/
def _check_freq (freq : ℕ → ℚ) : ℕ → Option ℚ :=
  fun i => if freq i = 0 then none else some (freq i)

/-- Model of `_check_volts` (lines 60-76).  When any value lies outside
0-5 V the source calls `log.warning`, but no `log` is bound anywhere in
the module, so the call raises `NameError` before the NaN replacement
lines can run; in-range input is returned unchanged. -/
def _check_volts (n : ℕ) (volts : ℕ → ℚ) : Except String (ℕ → ℚ) :=
  if ((List.range n).any (fun i => decide (volts i < 0))) ||
      ((List.range n).any (fun i => decide (5 < volts i))) then
    .error "NameError: name log is not defined"
  else
    .ok volts

/-- The in-place coefficient coercion loop
`for key in use_coefs: coefs[key] = float(coefs[key])` shared by every
conversion equation; returns the final state of the caller's dict. -/
def coerceCoefs : List String → Dict → Except String Dict
  | [], d => .ok d
  | k :: ks, d =>
    match lookupD d k with
    | none => .error ("KeyError: " ++ k)
    | some v =>
      match parseFloatVal v with
      | none => .error ("ValueError: could not convert string to float: " ++ k)
      | some q => coerceCoefs ks (setD d k (.pfloat q))

/-- Round half to even at integer precision (numpy rounding). -/
def roundHalfEven (x : ℚ) : ℤ :=
  let f := Int.floor x
  let frac := x - (f : ℚ)
  if frac < 1 / 2 then f
  else if 1 / 2 < frac then f + 1
  else if Even f then f else f + 1

/-- Model of `np.around(x, d)`. -/
def aroundQ (x : ℚ) (d : ℕ) : ℚ :=
  (roundHalfEven (x * (10 : ℚ) ^ d) : ℚ) / (10 : ℚ) ^ d

/-- Model of `sbe3` (lines 236-273): ITS-90 temperature from frequency.
`rlog` abstracts `np.log`; a NaN sample (zero frequency) is `none` and
propagates through the arithmetic maps.  Returns the converted column
together with the final state of the caller's coefficient dict. -/
def sbe3 (rlog : ℚ → ℚ) (freq : ℕ → ℚ) (coefs : Dict) :
    Except String ((ℕ → Option ℚ) × Dict) :=
  match _check_coefs coefs ["G", "H", "I", "J", "F0"] with
  | .error e => .error e
  | .ok _ =>
    let fq := _check_freq freq
    match coerceCoefs ["G", "H", "I", "J", "F0"] coefs with
    | .error e => .error e
    | .ok c2 =>
      let G := getF c2 "G"
      let H := getF c2 "H"
      let I := getF c2 "I"
      let J := getF c2 "J"
      let F0 := getF c2 "F0"
      let t := fun i => (fq i).map (fun f =>
        1 / (G + H * rlog (F0 / f) + I * (rlog (F0 / f)) ^ 2 + J * (rlog (F0 / f)) ^ 3)
          - 273.15)
      .ok (fun i => (t i).map (fun x => aroundQ x 4), c2)

/-- The sequential hysteresis recurrence of `sbe43_hysteresis_voltage`
(lines 544-549), on the offset-shifted voltage `oxy`. -/
def hystRec (oxy D : ℕ → ℚ) (C : ℚ) : ℕ → ℚ
  | 0 => oxy 0
  | i + 1 =>
    ((oxy (i + 1) + hystRec oxy D C i * C * D (i + 1)) - oxy i * C) / D (i + 1)

/-- Model of `sbe43_hysteresis_voltage` (lines 502-553).  `rexp` abstracts
`np.exp`; `n` is the series length (the per-sample checks range over it);
the result is the corrected series together with the final state of the
caller's coefficient dict. -/
def sbe43_hysteresis_voltage (rexp : ℚ → ℚ) (n : ℕ) (volts p : ℕ → ℚ)
    (coefs : Dict) (sample_freq : ℚ) : Except String ((ℕ → ℚ) × Dict) :=
  match _check_coefs coefs ["H1", "H2", "H3", "offset"] with
  | .error e => .error e
  | .ok _ =>
    match _check_volts n volts with
    | .error e => .error e
    | .ok volts2 =>
      match coerceCoefs ["H1", "H2", "H3", "offset"] coefs with
      | .error e => .error e
      | .ok c2 =>
        let H1 := getF c2 "H1"
        let H2 := getF c2 "H2"
        let H3 := getF c2 "H3"
        let offset := getF c2 "offset"
        let dt := 1 / sample_freq
        let D := fun i => 1 + H1 * (rexp (p i / H2) - 1)
        let C := rexp (-1 * dt / H3)
        let oxy := fun i => volts2 i + offset
        .ok (fun i => hystRec oxy D C i - offset, c2)

/-- A hysteresis coefficient dict whose values are already floats (the
shape used by the `convert_science` RINKO branch, line 216). -/
def mkHystCoefs (h1 h2 h3 off : ℚ) : Dict :=
  [("H1", .pfloat h1), ("H2", .pfloat h2), ("H3", .pfloat h3), ("offset", .pfloat off)]

/-- The spec-side hysteresis recurrence, written from the spec's words:
scan 0 is seeded from its own offset-shifted input; for later scans
`out[i] = ((in[i] + out[i-1]*C*D[i]) - in[i-1]*C) / D[i]` with
`D[i] = 1 + H1*(exp(p[i]/H2) - 1)` and `C = exp(-Δt/H3)`, `Δt` the
reciprocal sampling frequency, `in` the offset-shifted voltage. -/
def hysteresisSpec (rexp : ℚ → ℚ) (volts p : ℕ → ℚ)
    (h1 h2 h3 off sf : ℚ) : ℕ → ℚ
  | 0 => volts 0 + off
  | i + 1 =>
    ((volts (i + 1) + off +
        hysteresisSpec rexp volts p h1 h2 h3 off sf i *
          rexp (-(1 / sf) / h3) * (1 + h1 * (rexp (p (i + 1) / h2) - 1))) -
      (volts i + off) * rexp (-(1 / sf) / h3)) /
      (1 + h1 * (rexp (p (i + 1) / h2) - 1))

/-- Model of `sbe4` (lines 276-314): conductivity from frequency,
temperature and pressure, at the default 4 decimals.  The coefficient
coercion runs before the frequency sanitization, as in the source; a NaN
sample (zero frequency) is `none`. -/
def sbe4 (freq t p : ℕ → ℚ) (coefs : Dict) :
    Except String ((ℕ → Option ℚ) × Dict) :=
  match _check_coefs coefs ["G", "H", "I", "J", "CPcor", "CTcor"] with
  | .error e => .error e
  | .ok _ =>
    match coerceCoefs ["G", "H", "I", "J", "CPcor", "CTcor"] coefs with
    | .error e => .error e
    | .ok c2 =>
      let G := getF c2 "G"
      let H := getF c2 "H"
      let I := getF c2 "I"
      let J := getF c2 "J"
      let CPcor := getF c2 "CPcor"
      let CTcor := getF c2 "CTcor"
      let freq_kHz := fun i => (_check_freq freq i).map (fun f => f * 1e-3)
      let c_S_m := fun i => (freq_kHz i).map (fun f =>
        (G + H * f ^ 2 + I * f ^ 3 + J * f ^ 4) /
          (10 * (1 + CTcor * t i + CPcor * p i)))
      .ok (fun i => (c_S_m i).map (fun x => aroundQ (x * 10) 4), c2)

/-- Model of `sbe9` (lines 317-377): pressure from frequency and the raw
Digiquartz probe integer, at the default 4 decimals. -/
def sbe9 (freq : ℕ → ℚ) (t_probe : ℕ → ℤ) (coefs : Dict) :
    Except String ((ℕ → Option ℚ) × Dict) :=
  match _check_coefs coefs ["T1", "T2", "T3", "T4", "T5", "C1", "C2", "C3",
      "D1", "D2", "AD590M", "AD590B", "Slope", "Offset"] with
  | .error e => .error e
  | .ok _ =>
    match coerceCoefs ["T1", "T2", "T3", "T4", "T5", "C1", "C2", "C3",
        "D1", "D2", "AD590M", "AD590B", "Slope", "Offset"] coefs with
    | .error e => .error e
    | .ok c2 =>
      let tpn := fun i => getF c2 "AD590M" * ((t_probe i : ℚ)) + getF c2 "AD590B"
      let T0 := fun i => getF c2 "T1" + getF c2 "T2" * tpn i +
        getF c2 "T3" * (tpn i) ^ 2 + getF c2 "T4" * (tpn i) ^ 3
      let freq_MHz := fun i => (_check_freq freq i).map (fun f => f * 1e-6)
      let pd := fun i => (freq_MHz i).map (fun fM =>
        let w := 1 - T0 i * T0 i * fM * fM
        0.6894759 *
            ((getF c2 "C1" + getF c2 "C2" * tpn i + getF c2 "C3" * tpn i * tpn i) *
              w * (1 - (getF c2 "D1" + getF c2 "D2" * tpn i) * w) - 14.7) *
            getF c2 "Slope" + getF c2 "Offset")
      .ok (fun i => (pd i).map (fun x => aroundQ x 4), c2)

/-- Model of `oxy_umolkg_to_ml` (lines 452-475). -/
def oxy_umolkg_to_ml (oxy_umol_kg sigma0 : ℚ) : ℚ :=
  oxy_umol_kg * (sigma0 + 1000) / 44660

/-- Model of `oxy_ml_to_umolkg` (lines 477-500). -/
def oxy_ml_to_umolkg (oxy_mL_L sigma0 : ℚ) : ℚ :=
  oxy_mL_L * 44660 / (sigma0 + 1000)

/-- The external `gsw` (TEOS-10) library calls used by `sbe43`, modelled as
abstract per-sample functions. -/
structure Gsw where
  SP_from_C : ℚ → ℚ → ℚ → ℚ
  SA_from_SP : ℚ → ℚ → ℚ → ℚ → ℚ
  CT_from_t : ℚ → ℚ → ℚ → ℚ
  sigma0 : ℚ → ℚ → ℚ
  O2sol : ℚ → ℚ → ℚ → ℚ → ℚ → ℚ

/-- Model of `sbe43` (lines 380-450) at the default 4 decimals.  When
`hyst_check` is set, the source passes the same (already part-coerced)
coefficient dict to `sbe43_hysteresis_voltage`, which coerces the H1, H2,
H3 and offset entries too; the returned dict is the final state of the
caller's dict.  Without `hyst_check`, the oxygen formula uses the raw
`volts` argument (the source only binds the checked copy to
`volts_original`). -/
def sbe43 (gsw : Gsw) (rexp : ℚ → ℚ) (n : ℕ) (volts p t c : ℕ → ℚ)
    (coefs : Dict) (lat lon : ℚ) (hyst_check : Bool) :
    Except String ((ℕ → ℚ) × Dict) :=
  match _check_coefs coefs ["Soc", "offset", "Tau20", "A", "B", "C", "E"] with
  | .error e => .error e
  | .ok _ =>
    match _check_volts n volts with
    | .error e => .error e
    | .ok volts_original =>
      match coerceCoefs ["Soc", "offset", "Tau20", "A", "B", "C", "E"] coefs with
      | .error e => .error e
      | .ok c2 =>
        match (match hyst_check with
          | true => sbe43_hysteresis_voltage rexp n volts_original p c2 24
          | false => .ok (volts, c2)) with
        | .error e => .error e
        | .ok (vUsed, c3) =>
          let Soc := getF c3 "Soc"
          let offset := getF c3 "offset"
          let A := getF c3 "A"
          let B := getF c3 "B"
          let Cc := getF c3 "C"
          let E := getF c3 "E"
          let t_Kelvin := fun i => t i + 273.15
          let SP := fun i => gsw.SP_from_C (c i) (t i) (p i)
          let SA := fun i => gsw.SA_from_SP (SP i) (p i) lon lat
          let CT := fun i => gsw.CT_from_t (SA i) (t i) (p i)
          let sg := fun i => gsw.sigma0 (SA i) (CT i)
          let o2sol := fun i => gsw.O2sol (SA i) (CT i) (p i) lon lat
          let o2sol_ml_l := fun i => oxy_umolkg_to_ml (o2sol i) (sg i)
          let oxy_ml_l := fun i =>
            Soc * (vUsed i + offset) *
              (1 + A * t i + B * (t i) ^ 2 + Cc * (t i) ^ 3) *
              o2sol_ml_l i * rexp (E * p i / t_Kelvin i)
          .ok (fun i => aroundQ (oxy_ml_to_umolkg (oxy_ml_l i) (sg i)) 4, c3)

/-- Model of `sbe_altimeter` (lines 555-588) at the default 1 decimal. -/
def sbe_altimeter (n : ℕ) (volts : ℕ → ℚ) (coefs : Dict) :
    Except String ((ℕ → ℚ) × Dict) :=
  match _check_coefs coefs ["ScaleFactor", "Offset"] with
  | .error e => .error e
  | .ok _ =>
    match _check_volts n volts with
    | .error e => .error e
    | .ok volts2 =>
      match coerceCoefs ["ScaleFactor", "Offset"] coefs with
      | .error e => .error e
      | .ok c2 =>
        .ok (fun i =>
          aroundQ (300 * volts2 i / getF c2 "ScaleFactor" + getF c2 "Offset") 1, c2)

/-- Model of `seapoint_fluor` (lines 590-616) at the default 6 decimals:
validates the coefficient keys, rounds the raw voltage and returns it;
there is no coercion loop, so the caller's dict is returned unchanged. -/
def seapoint_fluor (volts : ℕ → ℚ) (coefs : Dict) :
    Except String ((ℕ → ℚ) × Dict) :=
  match _check_coefs coefs ["GainSetting", "Offset"] with
  | .error e => .error e
  | .ok _ => .ok (fun i => aroundQ (volts i) 6, coefs)

/-- The net dict effect the coercing equations leave behind: key set
preserved, entries outside `ks` untouched, each key of `ks` rebound to
the float parsed from its original value. -/
def coercedLookups (ks : List String) (d d2 : Dict) : Prop :=
  d2.map Prod.fst = d.map Prod.fst ∧
  (∀ k, k ∉ ks → lookupD d2 k = lookupD d k) ∧
  (∀ k ∈ ks, ∃ v q, lookupD d k = some v ∧ parseFloatVal v = some q ∧
    lookupD d2 k = some (.pfloat q))

/-! ## Concrete test fixtures used by the counterexample/witness theorems -/

/-- A concrete stand-in for the `lookup_table.yaml` mapping, with the
priorities documented in the `convert_science` docstring (temperature,
pressure, conductivity, oxygen, auxiliary); the claims about the queue are
proved for every lookup map, so only the counterexamples instantiate it. -/
def exLookup : String → LookupEntry := fun id =>
  if id = "55" then ⟨"sbs.sbe3", "CTDTMP", 1⟩
  else if id = "45" then ⟨"sbs.sbe9", "CTDPRS", 2⟩
  else if id = "3" then ⟨"sbs.sbe4", "CTDCOND", 3⟩
  else if id = "38" then ⟨"sbs.sbe43", "CTDOXY", 5⟩
  else ⟨"sbs.v_out", "FREE", 6⟩

/-- A single-CTD sensor map: temperature, conductivity, pressure, oxygen. -/
def exSensors : List SensorChan :=
  [⟨0, "55", "Temperature"⟩, ⟨1, "3", "Conductivity"⟩,
   ⟨2, "45", "Pressure"⟩, ⟨3, "38", "Oxygen SBE43"⟩]

/-- A dual-CTD sensor map: two temperatures and two conductivities. -/
def dualSensors : List SensorChan :=
  [⟨0, "55", "Temperature"⟩, ⟨1, "3", "Conductivity"⟩, ⟨2, "45", "Pressure"⟩,
   ⟨3, "55", "Temperature"⟩, ⟨4, "3", "Conductivity"⟩]

/-- SBE3 coefficients exactly as `parse_xmlcon` delivers them: strings. -/
def strCoefsG : Dict :=
  [("G", .pstr "1"), ("H", .pstr "0"), ("I", .pstr "0"),
   ("J", .pstr "0"), ("F0", .pstr "1")]

/-- The float dict that `sbe3` leaves behind in place of `strCoefsG`. -/
def floatCoefsG : Dict :=
  [("G", .pfloat 1), ("H", .pfloat 0), ("I", .pfloat 0),
   ("J", .pfloat 0), ("F0", .pfloat 1)]

/-- Already-float SBE4 coefficients. -/
def floatCoefs4 : Dict :=
  [("G", .pfloat 1), ("H", .pfloat 0), ("I", .pfloat 0), ("J", .pfloat 0),
   ("CPcor", .pfloat 0), ("CTcor", .pfloat 0)]

/-- Already-float SBE9 coefficients. -/
def floatCoefs9 : Dict :=
  [("T1", .pfloat 1), ("T2", .pfloat 1), ("T3", .pfloat 1), ("T4", .pfloat 1),
   ("T5", .pfloat 1), ("C1", .pfloat 1), ("C2", .pfloat 1), ("C3", .pfloat 1),
   ("D1", .pfloat 1), ("D2", .pfloat 1), ("AD590M", .pfloat 1),
   ("AD590B", .pfloat 1), ("Slope", .pfloat 1), ("Offset", .pfloat 1)]

/-- Already-float altimeter coefficients. -/
def floatCoefsAlt : Dict :=
  [("ScaleFactor", .pfloat 1), ("Offset", .pfloat 0)]

/-- Already-float SBE43 coefficients (without hysteresis entries). -/
def floatCoefs43 : Dict :=
  [("Soc", .pfloat 1), ("offset", .pfloat 0), ("Tau20", .pfloat 1),
   ("A", .pfloat 0), ("B", .pfloat 0), ("C", .pfloat 0), ("E", .pfloat 0)]

/-- Already-float SBE43 coefficients including the hysteresis entries. -/
def floatCoefs43h : Dict :=
  [("Soc", .pfloat 1), ("offset", .pfloat 0), ("Tau20", .pfloat 1),
   ("A", .pfloat 0), ("B", .pfloat 0), ("C", .pfloat 0), ("E", .pfloat 0),
   ("H1", .pfloat 1), ("H2", .pfloat 1), ("H3", .pfloat 1)]

/-- Already-float Seapoint fluorometer coefficients. -/
def fluorCoefs : Dict :=
  [("GainSetting", .pfloat 1), ("Offset", .pfloat 0)]

/-- A concrete instantiation of the abstract gsw library model. -/
def exGsw : Gsw :=
  ⟨fun a b c => a + b + c, fun a b c d => a + b + c + d,
   fun a b c => a + b + c, fun a b => a + b,
   fun a b c d e => a + b + c + d + e⟩

/-! ## Supporting lemmas -/

theorem rinkoFix_channel (r : Row) : (rinkoFix r).channel = r.channel := by
  unfold rinkoFix
  split_ifs <;> rfl

theorem rinkoFix_sensorID (r : Row) : (rinkoFix r).sensorID = r.sensorID := by
  unfold rinkoFix
  split_ifs <;> rfl

theorem renameRows_length (rs : List Row) :
    ∀ tr : String → ℕ, (renameRows rs tr).length = rs.length := by
  induction rs with
  | nil => intro tr; rfl
  | cons r rs ih =>
    intro tr
    by_cases h : tr r.shortName = 0 <;> simp [renameRows, h, ih]

theorem renameRows_channel_mem (rs : List Row) :
    ∀ (tr : String → ℕ) (d : Row), d ∈ renameRows rs tr →
      ∃ r ∈ rs, d.channel = r.channel := by
  induction rs with
  | nil => intro tr d h; simp [renameRows] at h
  | cons r rs ih =>
    intro tr d h
    simp only [renameRows] at h
    by_cases h0 : tr r.shortName = 0
    · rw [if_pos h0] at h
      rcases List.mem_cons.mp h with h | h
      · exact ⟨r, List.mem_cons_self r rs, by rw [h]⟩
      · obtain ⟨e, he, hc⟩ := ih _ d h
        exact ⟨e, List.mem_cons_of_mem r he, hc⟩
    · rw [if_neg h0] at h
      rcases List.mem_cons.mp h with h | h
      · exact ⟨r, List.mem_cons_self r rs, by rw [h]⟩
      · obtain ⟨e, he, hc⟩ := ih _ d h
        exact ⟨e, List.mem_cons_of_mem r he, hc⟩

theorem mkRows_channel_mem (sensors : List SensorChan) (lookup : String → LookupEntry)
    (r : Row) (h : r ∈ mkRows sensors lookup) :
    r.channel ∈ sensors.map SensorChan.channel := by
  unfold mkRows at h
  obtain ⟨s, hs, rfl⟩ := List.mem_map.mp h
  exact List.mem_map.mpr ⟨s, hs, rfl⟩

theorem preQueue_length (sensors : List SensorChan) (lookup : String → LookupEntry) :
    (preQueue sensors lookup).length = sensors.length := by
  unfold preQueue mkRows
  rw [List.length_map, List.length_insertionSort, List.length_map]

theorem preQueue_channel_mem (sensors : List SensorChan) (lookup : String → LookupEntry)
    (r : Row) (h : r ∈ preQueue sensors lookup) :
    r.channel ∈ sensors.map SensorChan.channel := by
  unfold preQueue at h
  obtain ⟨r0, hr0, rfl⟩ := List.mem_map.mp h
  rw [rinkoFix_channel]
  exact mkRows_channel_mem sensors lookup r0
    ((List.perm_insertionSort _ _).mem_iff.mp hr0)

theorem isDigit_ofNat48 (d : ℕ) (hd : d < 10) : (Char.ofNat (48 + d)).isDigit = true := by
  interval_cases d <;> decide

theorem natStr_data (n : ℕ) (hn : 1 ≤ n) :
    ∃ pre d, d < 10 ∧ (natStr n).data = pre ++ [Char.ofNat (48 + d)] := by
  obtain ⟨m, rfl⟩ : ∃ m, n = m + 1 := ⟨n - 1, by omega⟩
  refine ⟨natDigitsAux (m + 1) ((m + 1) / 10), (m + 1) % 10, by omega, ?_⟩
  unfold natStr
  rw [if_neg (by omega)]
  rfl

theorem lastIsDigit_append_natStr (s : String) (n : ℕ) (hn : 1 ≤ n) :
    lastIsDigit (s ++ natStr n) = true := by
  obtain ⟨pre, d, hd, hdata⟩ := natStr_data n hn
  unfold lastIsDigit
  rw [String.data_append, hdata, ← List.append_assoc,
    List.getLast?_append_of_ne_nil _ (by simp)]
  simpa using isDigit_ofNat48 d hd

theorem mem_take_get? {α : Type _} (l : List α) (i : ℕ) (a : α) :
    a ∈ l.take i ↔ ∃ j, j < i ∧ l.get? j = some a := by
  constructor
  · intro h
    obtain ⟨j, hget⟩ := List.mem_iff_get?.mp h
    obtain ⟨hj, _⟩ := List.get?_eq_some.mp hget
    have hlen : j < i := by
      have := List.length_take i l
      omega
    refine ⟨j, hlen, ?_⟩
    rw [← List.get?_take hlen]
    exact hget
  · rintro ⟨j, hj, hget⟩
    have h2 : (l.take i).get? j = some a := by
      rw [List.get?_take hj]
      exact hget
    exact List.get?_mem h2

theorem countP_take_pos_iff {α : Type _} (l : List α) (i : ℕ) (p : α → Bool) :
    0 < (l.take i).countP p ↔
      ∃ j, j < i ∧ ∃ e, l.get? j = some e ∧ p e = true := by
  rw [List.countP_pos]
  constructor
  · rintro ⟨a, ha, hp⟩
    obtain ⟨j, hj, hget⟩ := (mem_take_get? l i a).mp ha
    exact ⟨j, hj, a, hget, hp⟩
  · rintro ⟨j, hj, e, hget, hp⟩
    exact ⟨e, (mem_take_get? l i e).mpr ⟨j, hj, hget⟩, hp⟩

/-- Closed form for the disambiguation loop: item `i` of the output is item
`i` of the input with its display name derived from the tracker value plus
the number of earlier occurrences of the same short name. -/
theorem renameRows_get? : ∀ (rs : List Row) (tr : String → ℕ) (i : ℕ),
    (renameRows rs tr).get? i = (rs.get? i).map (fun r =>
      { r with newName :=
          if tr r.shortName +
              (rs.take i).countP (fun x => x.shortName == r.shortName) = 0
          then r.shortName
          else r.shortName ++
            natStr (tr r.shortName +
              (rs.take i).countP (fun x => x.shortName == r.shortName) + 1) }) := by
  intro rs
  induction rs with
  | nil => intro tr i; simp [renameRows]
  | cons r rs ih =>
    intro tr i
    cases i with
    | zero =>
      simp only [renameRows, List.take_zero, List.countP_nil, Nat.add_zero,
        List.get?_cons_zero, Option.map_some']
      by_cases h0 : tr r.shortName = 0
      · rw [if_pos h0, if_pos h0, List.get?_cons_zero]
      · rw [if_neg h0, if_neg h0, List.get?_cons_zero]
    | succ j =>
      have hstep : (renameRows (r :: rs) tr).get? (j + 1) =
          (renameRows rs (bumpCount tr r.shortName (tr r.shortName + 1))).get? j := by
        simp only [renameRows]
        by_cases h0 : tr r.shortName = 0
        · rw [if_pos h0, List.get?_cons_succ]
          simp [h0]
        · rw [if_neg h0, List.get?_cons_succ]
      rw [hstep, ih (bumpCount tr r.shortName (tr r.shortName + 1)) j,
        List.get?_cons_succ, List.take_succ_cons]
      refine congrArg (fun f => Option.map f (rs.get? j)) (funext fun e => ?_)
      have hc : bumpCount tr r.shortName (tr r.shortName + 1) e.shortName +
          (rs.take j).countP (fun x => x.shortName == e.shortName) =
          tr e.shortName +
            (r :: rs.take j).countP (fun x => x.shortName == e.shortName) := by
        rw [List.countP_cons]
        by_cases he : e.shortName = r.shortName
        · have hbe : (r.shortName == e.shortName) = true := beq_iff_eq.mpr he.symm
          simp only [bumpCount, if_pos he, hbe, if_true]
          rw [he]
          omega
        · have hbe : (r.shortName == e.shortName) = false :=
            beq_eq_false_iff_ne.mpr (fun hx => he hx.symm)
          simp [bumpCount, if_neg he, hbe]
      rw [hc]

theorem lookupD_setD_self : ∀ (d : Dict) (k : String) (v : PyVal),
    lookupD (setD d k v) k = some v
  | [], k, v => by simp [setD, lookupD, List.find?]
  | (k0, v0) :: rest, k, v => by
    by_cases h : k0 = k
    · subst h
      simp [setD, lookupD, List.find?]
    · have hbe : (k0 == k) = false := beq_eq_false_iff_ne.mpr h
      simp only [setD, if_neg h, lookupD, List.find?, hbe]
      exact lookupD_setD_self rest k v

theorem lookupD_setD_ne : ∀ (d : Dict) (k k2 : String) (v : PyVal), k2 ≠ k →
    lookupD (setD d k v) k2 = lookupD d k2
  | [], k, k2, v, h => by
    have hbe : (k == k2) = false := beq_eq_false_iff_ne.mpr (Ne.symm h)
    simp [setD, lookupD, List.find?, hbe]
  | (k0, v0) :: rest, k, k2, v, h => by
    by_cases h0 : k0 = k
    · subst h0
      have hbe : (k0 == k2) = false := beq_eq_false_iff_ne.mpr (Ne.symm h)
      simp [setD, lookupD, List.find?, hbe]
    · by_cases h2 : k0 = k2
      · subst h2
        simp [setD, if_neg h0, lookupD, List.find?]
      · have hbe : (k0 == k2) = false := beq_eq_false_iff_ne.mpr h2
        simp only [setD, if_neg h0, lookupD, List.find?, hbe]
        exact lookupD_setD_ne rest k k2 v h

theorem setD_keys : ∀ (d : Dict) (k : String) (v : PyVal),
    (lookupD d k).isSome → (setD d k v).map Prod.fst = d.map Prod.fst
  | [], k, v, h => by simp [lookupD, List.find?] at h
  | (k0, v0) :: rest, k, v, h => by
    by_cases h0 : k0 = k
    · subst h0
      simp [setD]
    · have hbe : (k0 == k) = false := beq_eq_false_iff_ne.mpr h0
      simp only [lookupD, List.find?, hbe] at h
      simp only [setD, if_neg h0, List.map_cons, List.cons.injEq, true_and]
      exact setD_keys rest k v h

/-- The net effect of the coefficient-coercion loop on the caller's dict:
keys are preserved, entries outside the coerced list are untouched, and
every coerced entry ends up as the float parsed from its original value. -/
theorem coerceCoefs_spec : ∀ (ks : List String) (d d2 : Dict),
    coerceCoefs ks d = .ok d2 →
    d2.map Prod.fst = d.map Prod.fst ∧
    (∀ k, k ∉ ks → lookupD d2 k = lookupD d k) ∧
    (∀ k ∈ ks, ∃ v q, lookupD d k = some v ∧ parseFloatVal v = some q ∧
      lookupD d2 k = some (.pfloat q)) := by
  intro ks
  induction ks with
  | nil =>
    intro d d2 h
    simp only [coerceCoefs] at h
    cases h
    exact ⟨rfl, fun _ _ => rfl, fun k hk => absurd hk (List.not_mem_nil k)⟩
  | cons k ks ih =>
    intro d d2 h
    simp only [coerceCoefs] at h
    cases hv : lookupD d k with
    | none => rw [hv] at h; cases h
    | some v =>
      rw [hv] at h
      dsimp only at h
      cases hq : parseFloatVal v with
      | none => rw [hq] at h; cases h
      | some q =>
        rw [hq] at h
        dsimp only at h
        obtain ⟨hkeys, hout, hin⟩ := ih (setD d k (.pfloat q)) d2 h
        refine ⟨?_, ?_, ?_⟩
        · rw [hkeys]
          exact setD_keys d k _ (by rw [hv]; rfl)
        · intro k2 hk2
          have h1 : k2 ≠ k ∧ k2 ∉ ks := by simpa [not_or] using hk2
          rw [hout k2 h1.2, lookupD_setD_ne d k k2 _ h1.1]
        · intro k2 hk2
          rcases List.mem_cons.mp hk2 with rfl | hk2m
          · by_cases hkk : k2 ∈ ks
            · obtain ⟨v2, q2, hl2, hp2, hd2⟩ := hin k2 hkk
              rw [lookupD_setD_self] at hl2
              have hv2 : v2 = .pfloat q := (Option.some.inj hl2).symm
              rw [hv2] at hp2
              have hq2 : q2 = q := (Option.some.inj (by simpa [parseFloatVal] using hp2)).symm
              exact ⟨v, q, hv, hq, by rw [hd2, hq2]⟩
            · exact ⟨v, q, hv, hq, by rw [hout k2 hkk, lookupD_setD_self]⟩
          · by_cases hk2k : k2 = k
            · subst hk2k
              obtain ⟨v2, q2, hl2, hp2, hd2⟩ := hin k2 hk2m
              rw [lookupD_setD_self] at hl2
              have hv2 : v2 = .pfloat q := (Option.some.inj hl2).symm
              rw [hv2] at hp2
              have hq2 : q2 = q := (Option.some.inj (by simpa [parseFloatVal] using hp2)).symm
              exact ⟨v, q, hv, hq, by rw [hd2, hq2]⟩
            · obtain ⟨v2, q2, hl2, hp2, hd2⟩ := hin k2 hk2m
              rw [lookupD_setD_ne d k k2 _ hk2k] at hl2
              exact ⟨v2, q2, hl2, hp2, hd2⟩

/-- Dict effect of `sbe43_hysteresis_voltage` on any successful call. -/
theorem hysteresis_dict_effect (rexp : ℚ → ℚ) (nn : ℕ) (volts p : ℕ → ℚ)
    (sf : ℚ) (d d2 : Dict)
    (h : (sbe43_hysteresis_voltage rexp nn volts p d sf).toOption.map Prod.snd =
      some d2) :
    coercedLookups ["H1", "H2", "H3", "offset"] d d2 := by
  unfold sbe43_hysteresis_voltage at h
  cases hc : _check_coefs d ["H1", "H2", "H3", "offset"] with
  | error e => rw [hc] at h; cases h
  | ok u =>
    rw [hc] at h
    dsimp only at h
    cases hcv : _check_volts nn volts with
    | error e => rw [hcv] at h; cases h
    | ok volts2 =>
      rw [hcv] at h
      dsimp only at h
      cases hco : coerceCoefs ["H1", "H2", "H3", "offset"] d with
      | error e => rw [hco] at h; cases h
      | ok c2 =>
        rw [hco] at h
        have hd : c2 = d2 := by simpa [Except.toOption] using h
        rw [← hd]
        exact coerceCoefs_spec _ _ _ hco

/-! ## Claim theorems -/

/-- C1: the claimed decode/encode round trip does not exist in the code:
`hex_to_dataset` stores the header under the attribute `hex_header`, while
`ds_to_hex` reads `ds.comments`; on a well-formed input (uppercase hex,
CRLF line endings) the decode succeeds but the re-encode raises
`AttributeError` instead of reproducing the bytes. -/
theorem C1_roundtrip_attribute_mismatch :
    hex_to_dataset "*number of bytes per scan = 1\r\nFF\r\n" .raiseMode =
      .ok { hexData := [[255]],
            attrs := [("hex_header", "*number of bytes per scan = 1")] } ∧
    ds_to_hex { hexData := [[255]],
                attrs := [("hex_header", "*number of bytes per scan = 1")] } =
      .error "AttributeError: Dataset object has no attribute comments" := by
  refine ⟨by decide, by decide⟩

/-- C8: an out-of-range voltage does not get replaced by NaN; `_check_volts`
raises `NameError` (no `log` is bound in the module), so a conversion that
receives a 6 V sample aborts instead of continuing. -/
theorem C8_out_of_range_volts_namerror :
    _check_volts 1 (fun _ => 6) = .error "NameError: name log is not defined" ∧
    (sbe43_hysteresis_voltage (fun q => q) 1 (fun _ => 6) (fun _ => 0)
        (mkHystCoefs 0 1 1 0) 24).toOption = none :=
  ⟨rfl, rfl⟩

/-- C3 counterexample: the all-ones byte row decodes to 16777215/256, which
exceeds the claimed upper bound 65535/256. -/
theorem C3_frequency_bound_counterexample :
    get_freq [[255, 255, 255]] 0 = [16777215 / 256] ∧
    ¬ ((16777215 : ℚ) / 256 ≤ 65535 / 256) := by
  constructor
  · have h : get_freq [[255, 255, 255]] 0 = [((16777215 : ℕ) : ℚ) / 256] := rfl
    rw [h]; norm_num
  · norm_num

/-- C3 amended: every decoded frequency value equals the big-endian 3-byte
word at offset `3c` divided by 256, and for byte values below 256 it lies
within `[0, 16777215/256]` (the claimed bound 65535/256 is off by the
third byte). -/
theorem C3_frequency_decode_amended (hex : List (List ℕ)) (row : List ℕ) (c : ℕ)
    (hb : ∀ b ∈ row, b < 256) :
    get_freq hex c = hex.map (fun r => ((specFWord c r : ℚ) / 256)) ∧
    0 ≤ (specFWord c row : ℚ) / 256 ∧
    (specFWord c row : ℚ) / 256 ≤ 16777215 / 256 := by
  have e8 : (2 : ℕ) ^ 8 = 256 := by norm_num
  have e16 : (2 : ℕ) ^ 16 = 65536 := by norm_num
  have e24 : (2 : ℕ) ^ 24 = 16777216 := by norm_num
  have hB : ∀ i, row.getD i 0 < 2 ^ 8 := by
    intro i
    rw [e8, List.getD_eq_getElem?_getD, ← List.get?_eq_getElem?]
    rcases h : row.get? i with _ | b
    · simp [h]
    · simp [h]
      exact hb b (List.get?_mem h)
  have h1 : row.getD (3 * c) 0 <<< 8 < 2 ^ 16 := by
    rw [Nat.shiftLeft_eq, e16]
    have := hB (3 * c)
    rw [e8] at this
    omega
  have h2 := Nat.or_lt_two_pow h1 (lt_trans (hB (3 * c + 1)) (by norm_num))
  have h3 : (row.getD (3 * c) 0 <<< 8 ||| row.getD (3 * c + 1) 0) <<< 8 < 2 ^ 24 := by
    rw [Nat.shiftLeft_eq, e24]
    rw [e16] at h2
    rw [e8]
    omega
  have h4 := Nat.or_lt_two_pow h3 (lt_trans (hB (3 * c + 2)) (by norm_num))
  have h5 : specFWord c row < 16777216 := by rw [← e24]; exact h4
  have h6 : (specFWord c row : ℚ) ≤ 16777215 := by exact_mod_cast (by omega : specFWord c row ≤ 16777215)
  refine ⟨rfl, by positivity, ?_⟩
  have h256 : (0 : ℚ) < 256 := by norm_num
  exact (div_le_div_iff_of_pos_right h256).mpr h6

/-- Witness for the amended C3 theorem at a concrete byte row. -/
theorem C3_frequency_decode_amended_witness :
    (∀ b ∈ ([1, 2, 3] : List ℕ), b < 256) ∧
    (get_freq [[1, 2, 3]] 0 = [[1, 2, 3]].map (fun r => ((specFWord 0 r : ℚ) / 256)) ∧
     0 ≤ (specFWord 0 [1, 2, 3] : ℚ) / 256 ∧
     (specFWord 0 [1, 2, 3] : ℚ) / 256 ≤ 16777215 / 256) :=
  ⟨by decide, C3_frequency_decode_amended [[1, 2, 3]] [1, 2, 3] 0 (by decide)⟩

/-- C9 counterexample: with a sensor map of length 8 and 2 suppressed
frequency channels, `hex_to_v` extracts 3 voltage channels, not the
claimed `8 - (5 - 2) = 5`. -/
theorem C9_channel_count_counterexample :
    (hex_to_v [] 8 2).map List.length = .ok 3 ∧ (3 : ℕ) ≠ 8 - (5 - 2) := by
  refine ⟨by decide, by decide⟩

/-- C9 amended: `hex_to_v` always uses `start_v_ind = 5`, so the number of
extracted voltage channels is the sensor-map length minus 5 (independent
of the suppressed-frequency count, which only moves byte offsets), the
channels processed are the absolute indices `5, 6, ...`, and a map of
length at most 5 is a fatal `Invalid channel indices` error. -/
theorem C9_channel_count_amended (hex : List (List ℕ)) (len f : ℕ) :
    hex_to_v hex len f =
      if len ≤ 5 then
        .error ("ValueError: Invalid channel indices: start_v_ind=" ++ intStr 5 ++
          ", end_v_ind=" ++ intStr (len : ℤ))
      else
        .ok ((List.range (len - 5)).map (fun j => get_channel_voltage hex (5 + j) f)) := by
  have e0 : (len : ℤ) - ((len : ℤ) - 5) = 5 := by ring
  simp only [hex_to_v, e0]
  by_cases hlen : len ≤ 5
  · rw [if_pos (Or.inr (show (5 : ℤ) ≥ (len : ℤ) by exact_mod_cast hlen)),
      if_pos hlen]
  · rw [if_neg (show ¬ ((5 : ℤ) < 0 ∨ (5 : ℤ) ≥ (len : ℤ)) by omega), if_neg hlen]
    have hr : intRange 5 (len : ℤ) =
        (List.range (len - 5)).map (fun j => ((5 + j : ℕ) : ℤ)) := by
      unfold intRange
      have ht : ((len : ℤ) - 5).toNat = len - 5 := by omega
      rw [ht]
      refine List.map_congr_left (fun j _ => ?_)
      push_cast
      ring
    rw [hr, List.map_map]
    refine congrArg Except.ok (List.map_congr_left (fun j _ => ?_))
    show get_channel_voltage hex ((5 + (j : ℤ)).toNat) f = get_channel_voltage hex (5 + j) f
    rw [show ((5 + (j : ℤ)).toNat) = 5 + j by omega]

/-- C2: for every scan row and voltage channel `n` (0-based from the first
voltage channel) with `f` suppressed frequency channels, the extraction
reads the two bytes at `(5-f)*3 + 3*(n//2) + (n%2)` and the next offset,
combines them big-endian, shifts right by `4*(1-(n%2))`, masks to 12 bits
and returns `5*(1 - value/4095)`; a 12-bit value of 0 gives exactly 5 V
and 4095 gives exactly 0 V. -/
theorem C2_voltage_extraction_formula (hex : List (List ℕ)) (row : List ℕ) (n f : ℕ)
    (_hf : f ≤ 5) :
    get_channel_voltage hex n f =
      hex.map (fun r => 5 * (1 - (specVWord n f r : ℚ) / 4095)) ∧
    (specVWord n f row = 0 → get_channel_voltage [row] n f = [(5 : ℚ)]) ∧
    (specVWord n f row = 4095 → get_channel_voltage [row] n f = [(0 : ℚ)]) := by
  have hmap : ∀ hx : List (List ℕ), get_channel_voltage hx n f =
      hx.map (fun r => 5 * (1 - (specVWord n f r : ℚ) / 4095)) := by
    intro hx
    have e1 : n / 2 * 3 + n % 2 + (5 - f) * 3 = (5 - f) * 3 + 3 * (n / 2) + n % 2 := by
      omega
    have e2 : n / 2 * 3 + n % 2 + 1 + (5 - f) * 3 =
        (5 - f) * 3 + 3 * (n / 2) + n % 2 + 1 := by
      omega
    simp only [get_channel_voltage, calc_v_indexes, specVWord]
    rw [e1, e2]
  refine ⟨hmap hex, fun h => ?_, fun h => ?_⟩
  · rw [hmap [row]]
    simp only [List.map_cons, List.map_nil, h]
    norm_num
  · rw [hmap [row]]
    simp only [List.map_cons, List.map_nil, h]
    norm_num

/-- Witness for the C2 theorem at channel 1, no suppressed channels, on a
concrete 18-byte scan row. -/
theorem C2_voltage_extraction_formula_witness :
    (0 : ℕ) ≤ 5 ∧
    (get_channel_voltage [[1, 2, 3, 4, 5, 6, 7, 8, 9, 10, 11, 12, 13, 14, 15, 255, 240, 17]] 1 0 =
      [[1, 2, 3, 4, 5, 6, 7, 8, 9, 10, 11, 12, 13, 14, 15, 255, 240, 17]].map
        (fun r => 5 * (1 - (specVWord 1 0 r : ℚ) / 4095)) ∧
    (specVWord 1 0 [1, 2, 3, 4, 5, 6, 7, 8, 9, 10, 11, 12, 13, 14, 15, 255, 240, 17] = 0 →
      get_channel_voltage [[1, 2, 3, 4, 5, 6, 7, 8, 9, 10, 11, 12, 13, 14, 15, 255, 240, 17]] 1 0 =
        [(5 : ℚ)]) ∧
    (specVWord 1 0 [1, 2, 3, 4, 5, 6, 7, 8, 9, 10, 11, 12, 13, 14, 15, 255, 240, 17] = 4095 →
      get_channel_voltage [[1, 2, 3, 4, 5, 6, 7, 8, 9, 10, 11, 12, 13, 14, 15, 255, 240, 17]] 1 0 =
        [(0 : ℚ)])) :=
  ⟨by decide,
   C2_voltage_extraction_formula
     [[1, 2, 3, 4, 5, 6, 7, 8, 9, 10, 11, 12, 13, 14, 15, 255, 240, 17]]
     [1, 2, 3, 4, 5, 6, 7, 8, 9, 10, 11, 12, 13, 14, 15, 255, 240, 17] 1 0 (by decide)⟩

/-- C6: on in-range voltage input, `sbe43_hysteresis_voltage` returns the
spec recurrence (seeded at scan 0 from the offset-shifted input, then
`out[i] = ((in[i] + out[i-1]*C*D[i]) - in[i-1]*C)/D[i]` on offset-shifted
values) with the offset removed at the end, where `D[i] = 1 +
H1*(exp(p[i]/H2) - 1)` and `C = exp(-Δt/H3)` is constant with `Δt` the
reciprocal sampling frequency. -/
theorem C6_hysteresis_recurrence (rexp : ℚ → ℚ) (n : ℕ) (volts p : ℕ → ℚ)
    (h1 h2 h3 off sf : ℚ) (hv : ∀ i, 0 ≤ volts i ∧ volts i ≤ 5) :
    sbe43_hysteresis_voltage rexp n volts p (mkHystCoefs h1 h2 h3 off) sf =
      .ok (fun i => hysteresisSpec rexp volts p h1 h2 h3 off sf i - off,
           mkHystCoefs h1 h2 h3 off) ∧
    hysteresisSpec rexp volts p h1 h2 h3 off sf 0 = volts 0 + off ∧
    ∀ i, hysteresisSpec rexp volts p h1 h2 h3 off sf (i + 1) =
      ((volts (i + 1) + off + hysteresisSpec rexp volts p h1 h2 h3 off sf i *
          rexp (-(1 / sf) / h3) * (1 + h1 * (rexp (p (i + 1) / h2) - 1))) -
        (volts i + off) * rexp (-(1 / sf) / h3)) /
        (1 + h1 * (rexp (p (i + 1) / h2) - 1)) := by
  have hcv : _check_volts n volts = .ok volts := by
    unfold _check_volts
    have hA : ((List.range n).any fun i => decide (volts i < 0)) = false := by
      rw [Bool.eq_false_iff]
      intro hcon
      rw [List.any_eq_true] at hcon
      obtain ⟨i, _, hi⟩ := hcon
      rw [decide_eq_true_eq] at hi
      exact absurd hi (not_lt.mpr (hv i).1)
    have hB : ((List.range n).any fun i => decide (5 < volts i)) = false := by
      rw [Bool.eq_false_iff]
      intro hcon
      rw [List.any_eq_true] at hcon
      obtain ⟨i, _, hi⟩ := hcon
      rw [decide_eq_true_eq] at hi
      exact absurd hi (not_lt.mpr (hv i).2)
    rw [hA, hB]
    rfl
  have main : sbe43_hysteresis_voltage rexp n volts p (mkHystCoefs h1 h2 h3 off) sf =
      .ok (fun i => hystRec (fun j => volts j + off)
          (fun j => 1 + h1 * (rexp (p j / h2) - 1)) (rexp (-1 * (1 / sf) / h3)) i - off,
        mkHystCoefs h1 h2 h3 off) := by
    unfold sbe43_hysteresis_voltage
    rw [hcv]
    rfl
  have key : ∀ i, hystRec (fun j => volts j + off)
      (fun j => 1 + h1 * (rexp (p j / h2) - 1)) (rexp (-1 * (1 / sf) / h3)) i =
      hysteresisSpec rexp volts p h1 h2 h3 off sf i := by
    intro i
    induction i with
    | zero => rfl
    | succ k ih =>
      have hC : (-1 * (1 / sf) / h3 : ℚ) = -(1 / sf) / h3 := by ring
      rw [hC] at ih
      simp only [hystRec, hysteresisSpec, hC, ih]
  have hfun : (fun i => hystRec (fun j => volts j + off)
      (fun j => 1 + h1 * (rexp (p j / h2) - 1)) (rexp (-1 * (1 / sf) / h3)) i - off) =
      (fun i => hysteresisSpec rexp volts p h1 h2 h3 off sf i - off) :=
    funext fun i => by rw [key i]
  refine ⟨?_, rfl, fun i => rfl⟩
  rw [main, hfun]

/-- Witness for the C6 theorem at a constant 1 V series of length 2. -/
theorem C6_hysteresis_recurrence_witness :
    (∀ _ : ℕ, 0 ≤ (1 : ℚ) ∧ (1 : ℚ) ≤ 5) ∧
    (sbe43_hysteresis_voltage (fun q => 1 + q) 2 (fun _ => 1) (fun _ => 0)
        (mkHystCoefs 1 1 1 0) 1 =
      .ok (fun i => hysteresisSpec (fun q => 1 + q) (fun _ => 1) (fun _ => 0) 1 1 1 0 1 i - 0,
           mkHystCoefs 1 1 1 0) ∧
     hysteresisSpec (fun q => 1 + q) (fun _ => 1) (fun _ => 0) 1 1 1 0 1 0 = 1 + 0 ∧
     ∀ i, hysteresisSpec (fun q => 1 + q) (fun _ => 1) (fun _ => 0) 1 1 1 0 1 (i + 1) =
       ((1 + 0 + hysteresisSpec (fun q => 1 + q) (fun _ => 1) (fun _ => 0) 1 1 1 0 1 i *
           (1 + -(1 / 1) / 1) * (1 + 1 * ((1 + (0 : ℚ) / 1) - 1))) -
         (1 + 0) * (1 + -(1 / 1) / 1)) /
         (1 + 1 * ((1 + (0 : ℚ) / 1) - 1))) :=
  ⟨fun _ => ⟨by norm_num, by norm_num⟩,
   C6_hysteresis_recurrence (fun q => 1 + q) 2 (fun _ => 1) (fun _ => 0) 1 1 1 0 1
     (fun _ => ⟨by norm_num, by norm_num⟩)⟩

/-- C4 counterexample: for a four-channel configuration the work queue of
`convert_science` consists of exactly the four physical channels in
priority order; no fifth, synthetic salinity item exists. -/
theorem C4_no_salinity_item_counterexample :
    (buildQueue exSensors exLookup).map Row.channel = [0, 2, 1, 3] ∧
    exSensors.map SensorChan.channel = [0, 1, 2, 3] ∧
    (buildQueue exSensors exLookup).length ≠ exSensors.length + 1 := by
  refine ⟨by decide, by decide, by decide⟩

/-- C4 amended: the work queue contains exactly one item per physical
channel of the sensor map, each tied to a physical channel index; no
synthetic salinity item is enqueued, for every sensor map and every
lookup table. -/
theorem C4_queue_one_item_per_channel (sensors : List SensorChan)
    (lookup : String → LookupEntry) :
    (buildQueue sensors lookup).length = sensors.length ∧
    ∀ d ∈ buildQueue sensors lookup, d.channel ∈ sensors.map SensorChan.channel := by
  constructor
  · unfold buildQueue
    rw [renameRows_length, preQueue_length]
  · intro d hd
    unfold buildQueue at hd
    obtain ⟨r, hr, hc⟩ := renameRows_channel_mem _ _ d hd
    rw [hc]
    exact preQueue_channel_mem sensors lookup r hr

/-- C5 counterexample: with dual temperature and conductivity sensors, the
second conductivity item (channel 4, display name CTDCOND2) reads the
suffixed temperature column CTDTMP2 — the column written by the later,
suffixed temperature instance (channel 3) — so the suffixed instance is
supplied as a dependency input, contrary to the claim. -/
theorem C5_suffixed_dependency_counterexample :
    (buildQueue dualSensors exLookup).map (fun d => (d.channel, d.newName)) =
      [(0, "CTDTMP"), (3, "CTDTMP2"), (2, "CTDPRS"), (1, "CTDCOND"), (4, "CTDCOND2")] ∧
    depsOf "3" "CTDCOND2" = ["CTDTMP2", "CTDPRS"] ∧
    depsOf "38" "CTDOXY2" = ["CTDTMP2", "CTDCOND2", "CTDPRS"] := by
  refine ⟨by decide, by decide, by decide⟩

/-- C5 amended: in every work queue whose short display names are nonempty
and do not themselves end in a digit, an item's disambiguated name ends in
a digit exactly when an earlier queue item carries the same short name
(so the first-seen instance keeps the unsuffixed name); and the dispatch
reads the suffixed dependency columns CTDTMP2 / CTDCOND2 exactly for the
digit-suffixed conductivity and oxygen items, the unsuffixed (primary)
columns otherwise, with CTDPRS always shared. -/
theorem C5_dual_sensor_pairing (sensors : List SensorChan)
    (lookup : String → LookupEntry)
    (hnames : ∀ r ∈ preQueue sensors lookup,
      r.shortName ≠ "" ∧ lastIsDigit r.shortName = false) :
    ∀ i d, (buildQueue sensors lookup).get? i = some d →
      ((lastIsDigit d.newName = true ↔
        ∃ j, j < i ∧ ∃ e, (buildQueue sensors lookup).get? j = some e ∧
          e.shortName = d.shortName) ∧
       (d.sensorID = "3" →
        depsOf d.sensorID d.newName =
          [(if lastIsDigit d.newName then "CTDTMP2" else "CTDTMP"), "CTDPRS"]) ∧
       (d.sensorID = "38" →
        depsOf d.sensorID d.newName =
          [(if lastIsDigit d.newName then "CTDTMP2" else "CTDTMP"),
           (if lastIsDigit d.newName then "CTDCOND2" else "CTDCOND"), "CTDPRS"])) := by
  intro i d hd
  have hq : ∀ m, (buildQueue sensors lookup).get? m =
      ((preQueue sensors lookup).get? m).map (renameAt (preQueue sensors lookup) m) := by
    intro m
    unfold buildQueue renameAt cntShort
    rw [renameRows_get?]
    simp only [Nat.zero_add]
  refine ⟨?_, fun h3 => by rw [h3]; simp [depsOf], fun h38 => by rw [h38]; simp [depsOf]⟩
  rw [hq i] at hd
  cases hr : (preQueue sensors lookup).get? i with
  | none => rw [hr] at hd; cases hd
  | some r =>
    rw [hr] at hd
    have hd2 : d = renameAt (preQueue sensors lookup) i r :=
      (Option.some.inj hd).symm
    obtain ⟨hne, hdig⟩ := hnames r (List.get?_mem hr)
    subst hd2
    show lastIsDigit (renameAt (preQueue sensors lookup) i r).newName = true ↔
      ∃ j, j < i ∧ ∃ e, (buildQueue sensors lookup).get? j = some e ∧
        e.shortName = r.shortName
    have hex : (∃ j, j < i ∧ ∃ e, (buildQueue sensors lookup).get? j = some e ∧
        e.shortName = r.shortName) ↔
        0 < cntShort (preQueue sensors lookup) i r.shortName := by
      rw [cntShort, countP_take_pos_iff]
      constructor
      · rintro ⟨j, hj, e, hget, hsame⟩
        rw [hq j] at hget
        cases hr0 : (preQueue sensors lookup).get? j with
        | none => rw [hr0] at hget; cases hget
        | some e0 =>
          rw [hr0] at hget
          have he0 : e = _ := (Option.some.inj hget).symm
          refine ⟨j, hj, e0, hr0, ?_⟩
          rw [beq_iff_eq]
          rw [he0] at hsame
          exact hsame
      · rintro ⟨j, hj, e0, hget, hp⟩
        refine ⟨j, hj, _, by rw [hq j, hget]; rfl, ?_⟩
        dsimp only [renameAt]
        exact beq_iff_eq.mp hp
    rw [hex]
    simp only [renameAt]
    by_cases h0 : cntShort (preQueue sensors lookup) i r.shortName = 0
    · rw [if_pos h0, hdig, h0]
      simp
    · rw [if_neg h0,
        lastIsDigit_append_natStr r.shortName _ (by omega)]
      simp
      omega

/-- Witness for the amended C5 theorem: the dual-CTD queue at index 4 (the
second conductivity, display name CTDCOND2). -/
theorem C5_dual_sensor_pairing_witness :
    (∀ r ∈ preQueue dualSensors exLookup,
      r.shortName ≠ "" ∧ lastIsDigit r.shortName = false) ∧
    ((lastIsDigit "CTDCOND2" = true ↔
      ∃ j, j < 4 ∧ ∃ e, (buildQueue dualSensors exLookup).get? j = some e ∧
        e.shortName = "CTDCOND") ∧
     ((("3" : String) = "3") →
      depsOf "3" "CTDCOND2" =
        [(if lastIsDigit "CTDCOND2" then "CTDTMP2" else "CTDTMP"), "CTDPRS"]) ∧
     ((("3" : String) = "38") →
      depsOf "3" "CTDCOND2" =
        [(if lastIsDigit "CTDCOND2" then "CTDTMP2" else "CTDTMP"),
         (if lastIsDigit "CTDCOND2" then "CTDCOND2" else "CTDCOND"), "CTDPRS"])) :=
  ⟨by decide,
   C5_dual_sensor_pairing dualSensors exLookup (by decide) 4
     ⟨4, "3", "Conductivity", "sbs.sbe4", "CTDCOND", 3, "CTDCOND2"⟩ (by decide)⟩

/-- C10 counterexample: calling `sbe3` on the string-valued coefficient
dict parsed from the XMLCON leaves the caller's dict changed (its required
entries are overwritten with floats): the call succeeds and the post-call
dict differs from the original. -/
theorem C10_coefficient_mutation_counterexample :
    (sbe3 (fun q => q) (fun _ => 1) strCoefsG).toOption.map Prod.snd ≠
      some strCoefsG ∧
    (sbe3 (fun q => q) (fun _ => 1) strCoefsG).toOption.isSome = true := by
  refine ⟨by decide, rfl⟩

/-- C10 amended: the conversion equations are not all read-only on the
Configuration.  Each of the coefficient-coercing equations — sbe3, sbe4,
sbe9, sbe43 (which, with hysteresis enabled, additionally coerces the H1,
H2, H3 and offset entries through the nested hysteresis call),
sbe_altimeter and sbe43_hysteresis_voltage — rebinds, in the caller's
dict, exactly its required coefficient keys to the float parsed from
their original values, preserving the key set and every other entry (so a
dict whose required values are already floats keeps the same lookups);
seapoint_fluor alone leaves the caller's dict unchanged, as the original
claim stated. -/
theorem C10_coercion_effect :
    (∀ (rlog : ℚ → ℚ) (freq : ℕ → ℚ) (d d2 : Dict),
        (sbe3 rlog freq d).toOption.map Prod.snd = some d2 →
        coercedLookups ["G", "H", "I", "J", "F0"] d d2) ∧
    (∀ (freq t p : ℕ → ℚ) (d d2 : Dict),
        (sbe4 freq t p d).toOption.map Prod.snd = some d2 →
        coercedLookups ["G", "H", "I", "J", "CPcor", "CTcor"] d d2) ∧
    (∀ (freq : ℕ → ℚ) (t_probe : ℕ → ℤ) (d d2 : Dict),
        (sbe9 freq t_probe d).toOption.map Prod.snd = some d2 →
        coercedLookups ["T1", "T2", "T3", "T4", "T5", "C1", "C2", "C3",
          "D1", "D2", "AD590M", "AD590B", "Slope", "Offset"] d d2) ∧
    (∀ (gsw : Gsw) (rexp : ℚ → ℚ) (nn : ℕ) (volts p t c : ℕ → ℚ)
        (lat lon : ℚ) (d d2 : Dict),
        (sbe43 gsw rexp nn volts p t c d lat lon false).toOption.map Prod.snd =
          some d2 →
        coercedLookups ["Soc", "offset", "Tau20", "A", "B", "C", "E"] d d2) ∧
    (∀ (gsw : Gsw) (rexp : ℚ → ℚ) (nn : ℕ) (volts p t c : ℕ → ℚ)
        (lat lon : ℚ) (d d2 : Dict),
        (sbe43 gsw rexp nn volts p t c d lat lon true).toOption.map Prod.snd =
          some d2 →
        ∃ dmid, coerceCoefs ["Soc", "offset", "Tau20", "A", "B", "C", "E"] d =
            .ok dmid ∧
          coercedLookups ["H1", "H2", "H3", "offset"] dmid d2) ∧
    (∀ (nn : ℕ) (volts : ℕ → ℚ) (d d2 : Dict),
        (sbe_altimeter nn volts d).toOption.map Prod.snd = some d2 →
        coercedLookups ["ScaleFactor", "Offset"] d d2) ∧
    (∀ (volts : ℕ → ℚ) (d d2 : Dict),
        (seapoint_fluor volts d).toOption.map Prod.snd = some d2 → d2 = d) ∧
    (∀ (rexp : ℚ → ℚ) (nn : ℕ) (volts p : ℕ → ℚ) (sf : ℚ) (d d2 : Dict),
        (sbe43_hysteresis_voltage rexp nn volts p d sf).toOption.map Prod.snd =
          some d2 →
        coercedLookups ["H1", "H2", "H3", "offset"] d d2) := by
  refine ⟨?_, ?_, ?_, ?_, ?_, ?_, ?_, ?_⟩
  · intro rlog freq d d2 h
    unfold sbe3 at h
    cases hc : _check_coefs d ["G", "H", "I", "J", "F0"] with
    | error e => rw [hc] at h; cases h
    | ok u =>
      rw [hc] at h
      dsimp only at h
      cases hco : coerceCoefs ["G", "H", "I", "J", "F0"] d with
      | error e => rw [hco] at h; cases h
      | ok c2 =>
        rw [hco] at h
        have hd : c2 = d2 := by simpa [Except.toOption] using h
        rw [← hd]
        exact coerceCoefs_spec _ _ _ hco
  · intro freq t p d d2 h
    unfold sbe4 at h
    cases hc : _check_coefs d ["G", "H", "I", "J", "CPcor", "CTcor"] with
    | error e => rw [hc] at h; cases h
    | ok u =>
      rw [hc] at h
      dsimp only at h
      cases hco : coerceCoefs ["G", "H", "I", "J", "CPcor", "CTcor"] d with
      | error e => rw [hco] at h; cases h
      | ok c2 =>
        rw [hco] at h
        have hd : c2 = d2 := by simpa [Except.toOption] using h
        rw [← hd]
        exact coerceCoefs_spec _ _ _ hco
  · intro freq t_probe d d2 h
    unfold sbe9 at h
    cases hc : _check_coefs d ["T1", "T2", "T3", "T4", "T5", "C1", "C2", "C3",
        "D1", "D2", "AD590M", "AD590B", "Slope", "Offset"] with
    | error e => rw [hc] at h; cases h
    | ok u =>
      rw [hc] at h
      dsimp only at h
      cases hco : coerceCoefs ["T1", "T2", "T3", "T4", "T5", "C1", "C2", "C3",
          "D1", "D2", "AD590M", "AD590B", "Slope", "Offset"] d with
      | error e => rw [hco] at h; cases h
      | ok c2 =>
        rw [hco] at h
        have hd : c2 = d2 := by simpa [Except.toOption] using h
        rw [← hd]
        exact coerceCoefs_spec _ _ _ hco
  · intro gsw rexp nn volts p t c lat lon d d2 h
    unfold sbe43 at h
    cases hc : _check_coefs d ["Soc", "offset", "Tau20", "A", "B", "C", "E"] with
    | error e => rw [hc] at h; cases h
    | ok u =>
      rw [hc] at h
      dsimp only at h
      cases hcv : _check_volts nn volts with
      | error e => rw [hcv] at h; cases h
      | ok volts2 =>
        rw [hcv] at h
        dsimp only at h
        cases hco : coerceCoefs ["Soc", "offset", "Tau20", "A", "B", "C", "E"] d with
        | error e => rw [hco] at h; cases h
        | ok c2 =>
          rw [hco] at h
          dsimp only at h
          have hd : c2 = d2 := by simpa [Except.toOption] using h
          rw [← hd]
          exact coerceCoefs_spec _ _ _ hco
  · intro gsw rexp nn volts p t c lat lon d d2 h
    unfold sbe43 at h
    cases hc : _check_coefs d ["Soc", "offset", "Tau20", "A", "B", "C", "E"] with
    | error e => rw [hc] at h; cases h
    | ok u =>
      rw [hc] at h
      dsimp only at h
      cases hcv : _check_volts nn volts with
      | error e => rw [hcv] at h; cases h
      | ok volts2 =>
        rw [hcv] at h
        dsimp only at h
        cases hco : coerceCoefs ["Soc", "offset", "Tau20", "A", "B", "C", "E"] d with
        | error e => rw [hco] at h; cases h
        | ok c2 =>
          rw [hco] at h
          dsimp only at h
          cases hh : sbe43_hysteresis_voltage rexp nn volts2 p c2 24 with
          | error e => rw [hh] at h; cases h
          | ok pr =>
            obtain ⟨v3, c3⟩ := pr
            rw [hh] at h
            have hd : c3 = d2 := by simpa [Except.toOption] using h
            refine ⟨c2, rfl, ?_⟩
            refine hysteresis_dict_effect rexp nn volts2 p 24 c2 d2 ?_
            rw [hh]
            simpa [Except.toOption] using hd
  · intro nn volts d d2 h
    unfold sbe_altimeter at h
    cases hc : _check_coefs d ["ScaleFactor", "Offset"] with
    | error e => rw [hc] at h; cases h
    | ok u =>
      rw [hc] at h
      dsimp only at h
      cases hcv : _check_volts nn volts with
      | error e => rw [hcv] at h; cases h
      | ok volts2 =>
        rw [hcv] at h
        dsimp only at h
        cases hco : coerceCoefs ["ScaleFactor", "Offset"] d with
        | error e => rw [hco] at h; cases h
        | ok c2 =>
          rw [hco] at h
          have hd : c2 = d2 := by simpa [Except.toOption] using h
          rw [← hd]
          exact coerceCoefs_spec _ _ _ hco
  · intro volts d d2 h
    unfold seapoint_fluor at h
    cases hc : _check_coefs d ["GainSetting", "Offset"] with
    | error e => rw [hc] at h; cases h
    | ok u =>
      rw [hc] at h
      have hd : d = d2 := by simpa [Except.toOption] using h
      exact hd.symm
  · exact hysteresis_dict_effect

/-- Witness for the amended C10 theorem: on already-float coefficient
dicts every call succeeds, the coercing equations return the same
lookups, and `seapoint_fluor` returns the identical dict. -/
theorem C10_coercion_effect_witness :
    ((sbe3 (fun q => q) (fun _ => 1) floatCoefsG).toOption.map Prod.snd =
        some floatCoefsG ∧
      coercedLookups ["G", "H", "I", "J", "F0"] floatCoefsG floatCoefsG) ∧
    ((sbe4 (fun _ => 1) (fun _ => 0) (fun _ => 0) floatCoefs4).toOption.map
        Prod.snd = some floatCoefs4 ∧
      coercedLookups ["G", "H", "I", "J", "CPcor", "CTcor"] floatCoefs4 floatCoefs4) ∧
    ((sbe9 (fun _ => 1) (fun _ => 0) floatCoefs9).toOption.map Prod.snd =
        some floatCoefs9 ∧
      coercedLookups ["T1", "T2", "T3", "T4", "T5", "C1", "C2", "C3",
        "D1", "D2", "AD590M", "AD590B", "Slope", "Offset"] floatCoefs9 floatCoefs9) ∧
    ((sbe43 exGsw (fun q => q) 1 (fun _ => 1) (fun _ => 0) (fun _ => 0)
          (fun _ => 0) floatCoefs43 0 0 false).toOption.map Prod.snd =
        some floatCoefs43 ∧
      coercedLookups ["Soc", "offset", "Tau20", "A", "B", "C", "E"]
        floatCoefs43 floatCoefs43) ∧
    ((sbe43 exGsw (fun q => q) 1 (fun _ => 1) (fun _ => 0) (fun _ => 0)
          (fun _ => 0) floatCoefs43h 0 0 true).toOption.map Prod.snd =
        some floatCoefs43h ∧
      ∃ dmid, coerceCoefs ["Soc", "offset", "Tau20", "A", "B", "C", "E"]
          floatCoefs43h = .ok dmid ∧
        coercedLookups ["H1", "H2", "H3", "offset"] dmid floatCoefs43h) ∧
    ((sbe_altimeter 1 (fun _ => 1) floatCoefsAlt).toOption.map Prod.snd =
        some floatCoefsAlt ∧
      coercedLookups ["ScaleFactor", "Offset"] floatCoefsAlt floatCoefsAlt) ∧
    ((seapoint_fluor (fun _ => 1) fluorCoefs).toOption.map Prod.snd =
        some fluorCoefs ∧
      fluorCoefs = fluorCoefs) ∧
    ((sbe43_hysteresis_voltage (fun q => q) 1 (fun _ => 1) (fun _ => 0)
          (mkHystCoefs 1 1 1 0) 24).toOption.map Prod.snd =
        some (mkHystCoefs 1 1 1 0) ∧
      coercedLookups ["H1", "H2", "H3", "offset"]
        (mkHystCoefs 1 1 1 0) (mkHystCoefs 1 1 1 0)) :=
  ⟨⟨rfl, C10_coercion_effect.1 (fun q => q) (fun _ => 1) floatCoefsG
      floatCoefsG rfl⟩,
   ⟨rfl, C10_coercion_effect.2.1 (fun _ => 1) (fun _ => 0) (fun _ => 0)
      floatCoefs4 floatCoefs4 rfl⟩,
   ⟨rfl, C10_coercion_effect.2.2.1 (fun _ => 1) (fun _ => 0)
      floatCoefs9 floatCoefs9 rfl⟩,
   ⟨rfl, C10_coercion_effect.2.2.2.1 exGsw (fun q => q) 1 (fun _ => 1)
      (fun _ => 0) (fun _ => 0) (fun _ => 0) 0 0 floatCoefs43 floatCoefs43 rfl⟩,
   ⟨rfl, C10_coercion_effect.2.2.2.2.1 exGsw (fun q => q) 1 (fun _ => 1)
      (fun _ => 0) (fun _ => 0) (fun _ => 0) 0 0 floatCoefs43h floatCoefs43h rfl⟩,
   ⟨rfl, C10_coercion_effect.2.2.2.2.2.1 1 (fun _ => 1)
      floatCoefsAlt floatCoefsAlt rfl⟩,
   ⟨rfl, C10_coercion_effect.2.2.2.2.2.2.1 (fun _ => 1)
      fluorCoefs fluorCoefs rfl⟩,
   ⟨rfl, C10_coercion_effect.2.2.2.2.2.2.2 (fun q => q) 1 (fun _ => 1)
      (fun _ => 0) 24 (mkHystCoefs 1 1 1 0) (mkHystCoefs 1 1 1 0) rfl⟩⟩

end Ctdcal
